import Mathlib

/-!
Verification of the mindface face-verification evaluation pipeline
(`src/mindface/recognition/eval.py`) against its specification.

The Python source is shallowly embedded: real numbers are modelled by `ℚ`
(the code's float arithmetic consists of comparisons, +, -, *, / and exact
counts, all faithfully represented over the rationals), numpy arrays by
`List`, and Python exceptions (`AssertionError`, `ZeroDivisionError`,
`ValueError` from numpy broadcasting, sklearn and scipy) by `Except String`.
External library calls (sklearn `KFold.split`, scipy `interp1d`,
numpy reductions) are modelled from their documented contracts, noted at
each definition.
-/

attribute [local semireducible] Rat.mul Rat.add Rat.sub Rat.inv Rat.ofScientific

/-- Decidable equality of `Except` results, so that concrete runs of the
embedded functions can be checked by `decide`. -/
instance {ε α : Type} [DecidableEq ε] [DecidableEq α] : DecidableEq (Except ε α)
  | Except.error e, Except.error f =>
    if h : e = f then Decidable.isTrue (by rw [h])
    else Decidable.isFalse (fun hh => h (Except.error.inj hh))
  | Except.error _, Except.ok _ => Decidable.isFalse (fun hh => Except.noConfusion hh)
  | Except.ok _, Except.error _ => Decidable.isFalse (fun hh => Except.noConfusion hh)
  | Except.ok a, Except.ok b =>
    if h : a = b then Decidable.isTrue (by rw [h])
    else Decidable.isFalse (fun hh => h (Except.ok.inj hh))

/-- Sequential effectful map over a list, mirroring a Python loop that can
raise: the first raised exception aborts the whole loop. -/
def mapExcept {α β : Type} (f : α → Except String β) : List α → Except String (List β)
  | [] => Except.ok []
  | x :: xs =>
    match f x with
    | Except.error e => Except.error e
    | Except.ok y =>
      match mapExcept f xs with
      | Except.error e => Except.error e
      | Except.ok ys => Except.ok (y :: ys)

theorem mapExcept_ok_length {α β : Type} {f : α → Except String β} :
    ∀ {xs : List α} {ys : List β}, mapExcept f xs = Except.ok ys → ys.length = xs.length := by
  intro xs
  induction xs with
  | nil =>
    intro ys h
    simp [mapExcept] at h
    simp [← h]
  | cons x xs ih =>
    intro ys h
    simp only [mapExcept] at h
    cases hx : f x with
    | error e => rw [hx] at h; exact absurd h (by simp)
    | ok y =>
      rw [hx] at h
      cases hr : mapExcept f xs with
      | error e => rw [hr] at h; exact absurd h (by simp)
      | ok zs =>
        rw [hr] at h
        cases h
        simp [ih hr]

theorem mapExcept_ok_getD {α β : Type} {f : α → Except String β} (d : α) (e : β) :
    ∀ {xs : List α} {ys : List β}, mapExcept f xs = Except.ok ys →
      ∀ i, i < xs.length → f (xs.getD i d) = Except.ok (ys.getD i e) := by
  intro xs
  induction xs with
  | nil => intro ys _ i hi; simp at hi
  | cons x xs ih =>
    intro ys h i hi
    simp only [mapExcept] at h
    cases hx : f x with
    | error er => rw [hx] at h; exact absurd h (by simp)
    | ok y =>
      rw [hx] at h
      cases hr : mapExcept f xs with
      | error er => rw [hr] at h; exact absurd h (by simp)
      | ok zs =>
        rw [hr] at h
        cases h
        cases i with
        | zero => simpa using hx
        | succ j =>
          simp only [List.getD_cons_succ]
          exact ih hr j (by simpa using hi)

theorem mapExcept_congr {α β : Type} {f g : α → Except String β} :
    ∀ {xs : List α}, (∀ a ∈ xs, f a = g a) → mapExcept f xs = mapExcept g xs := by
  intro xs
  induction xs with
  | nil => intro _; rfl
  | cons x xs ih =>
    intro h
    simp only [mapExcept, h x (by simp), ih (fun a ha => h a (by simp [ha]))]

/-- Arithmetic mean, `np.mean` (the callers below only apply it to nonempty
lists; numpy's nan-on-empty is irrelevant there). -/
def meanQ (xs : List ℚ) : ℚ := xs.sum / (xs.length : ℚ)

/-- Population variance (`ddof = 0`).  `np.std` is its square root; since the
square root of a rational is in general irrational, the embedding carries the
variance and the standard deviation is recovered as its square root. -/
def popVarQ (xs : List ℚ) : ℚ := meanQ (xs.map (fun x => (x - meanQ xs) ^ 2))

/-- Maximum of a list of rationals (value of `np.max` on a nonempty array). -/
def maxQ : List ℚ → ℚ
  | [] => 0
  | [x] => x
  | x :: y :: xs => max x (maxQ (y :: xs))

theorem le_maxQ : ∀ {xs : List ℚ}, ∀ x ∈ xs, x ≤ maxQ xs := by
  intro xs
  induction xs with
  | nil => intro x hx; simp at hx
  | cons a l ih =>
    intro x hx
    cases l with
    | nil => simp at hx; simp [maxQ, hx]
    | cons b m =>
      simp only [List.mem_cons] at hx
      rcases hx with h | h | h
      · simp [maxQ, h]
      · exact le_trans (ih x (by simp [h])) (by simp [maxQ])
      · exact le_trans (ih x (by simp [h])) (by simp [maxQ])

theorem maxQ_mem : ∀ {xs : List ℚ}, xs ≠ [] → maxQ xs ∈ xs := by
  intro xs
  induction xs with
  | nil => intro h; exact absurd rfl h
  | cons a l ih =>
    intro _
    cases l with
    | nil => simp [maxQ]
    | cons b m =>
      rcases le_total a (maxQ (b :: m)) with h | h
      · have := ih (by simp)
        simp only [maxQ, max_eq_right h]
        exact List.mem_cons_of_mem _ this
      · simp only [maxQ, max_eq_left h]
        exact List.mem_cons_self _ _

/-- `np.max`: raises on an empty array. -/
def npMax (xs : List ℚ) : Except String ℚ :=
  if xs = [] then Except.error "ValueError: zero-size array to reduction operation maximum"
  else Except.ok (maxQ xs)

/-- Index of the first occurrence of a value in a list (0 past the end). -/
def idxOfQ (v : ℚ) : List ℚ → Nat
  | [] => 0
  | x :: xs => if x = v then 0 else idxOfQ v xs + 1

theorem idxOfQ_lt_length : ∀ {xs : List ℚ} {v : ℚ}, v ∈ xs → idxOfQ v xs < xs.length := by
  intro xs
  induction xs with
  | nil => intro v h; simp at h
  | cons a l ih =>
    intro v h
    by_cases ha : a = v
    · simp [idxOfQ, ha]
    · have hv : v ∈ l := by
        rcases List.mem_cons.mp h with h' | h'
        · exact absurd h'.symm ha
        · exact h'
      simp only [idxOfQ, if_neg ha, List.length_cons]
      exact Nat.succ_lt_succ (ih hv)

theorem getD_idxOfQ : ∀ {xs : List ℚ} {v : ℚ}, v ∈ xs → xs.getD (idxOfQ v xs) 0 = v := by
  intro xs
  induction xs with
  | nil => intro v h; simp at h
  | cons a l ih =>
    intro v h
    by_cases ha : a = v
    · simp [idxOfQ, ha]
    · have hv : v ∈ l := by
        rcases List.mem_cons.mp h with h' | h'
        · exact absurd h'.symm ha
        · exact h'
      simp only [idxOfQ, if_neg ha, List.getD_cons_succ]
      exact ih hv

theorem getD_lt_idxOfQ : ∀ {xs : List ℚ} {v : ℚ} {j : Nat},
    j < idxOfQ v xs → xs.getD j 0 ≠ v := by
  intro xs
  induction xs with
  | nil => intro v j h; simp [idxOfQ] at h
  | cons a l ih =>
    intro v j h
    by_cases ha : a = v
    · simp [idxOfQ, ha] at h
    · cases j with
      | zero => simpa using ha
      | succ m =>
        simp only [idxOfQ, if_neg ha] at h
        simp only [List.getD_cons_succ]
        exact ih (Nat.lt_of_succ_lt_succ h)

/-- `np.argmax`: the first index attaining the maximum; raises on an empty
array (modelled from numpy's documented contract). -/
def npArgmax (xs : List ℚ) : Except String Nat :=
  if xs = [] then Except.error "ValueError: attempt to get argmax of an empty sequence"
  else Except.ok (idxOfQ (maxQ xs) xs)

theorem getD_mem : ∀ {xs : List ℚ} {j : Nat}, j < xs.length → xs.getD j 0 ∈ xs := by
  intro xs
  induction xs with
  | nil => intro j h; simp at h
  | cons a l ih =>
    intro j h
    cases j with
    | zero => simp
    | succ m =>
      simp only [List.getD_cons_succ]
      exact List.mem_cons_of_mem _ (ih (by simpa using h))

/-- Characterization of `np.argmax`: it returns an in-range index whose value
is a maximum, and every strictly earlier entry is strictly smaller (ties are
broken toward the lowest index). -/
theorem npArgmax_spec {xs : List ℚ} {b : Nat} (h : npArgmax xs = Except.ok b) :
    b < xs.length ∧ (∀ j, j < xs.length → xs.getD j 0 ≤ xs.getD b 0) ∧
      (∀ j, j < b → xs.getD j 0 < xs.getD b 0) := by
  by_cases hx : xs = []
  · simp [npArgmax, hx] at h
  · simp only [npArgmax, if_neg hx] at h
    cases h
    have hmem := maxQ_mem hx
    have hb := getD_idxOfQ hmem
    refine ⟨idxOfQ_lt_length hmem, ?_, ?_⟩
    · intro j hj
      rw [hb]
      exact le_maxQ _ (getD_mem hj)
    · intro j hj
      rw [hb]
      have hne := getD_lt_idxOfQ hj
      have hle : xs.getD j 0 ≤ maxQ xs := by
        have hjlen : j < xs.length := lt_trans hj (idxOfQ_lt_length hmem)
        exact le_maxQ _ (getD_mem hjlen)
      exact lt_of_le_of_ne hle hne

/-- Numpy integer-array ("fancy") indexing of a rational array, `a[ixs]`.
Indices produced by the fold splitter below are always in range (see
`lfoldSplit_bounded`), so the out-of-range default is never exercised by the
embedded callers. -/
def npIxQ (a : List ℚ) (ixs : List Nat) : List ℚ := ixs.map (fun i => a.getD i 0)

/-- Numpy fancy indexing of a boolean array. -/
def npIxB (a : List Bool) (ixs : List Nat) : List Bool := ixs.map (fun i => a.getD i false)

/-- Second dimension (`shape[1]`) of a 2-D array modelled as a list of rows;
numpy arrays are rectangular, so the first row's length represents it. -/
def shape1 (m : List (List ℚ)) : Nat := (m.headD []).length

/-- Row-wise squared Euclidean distance between paired embeddings:
`diff = np.subtract(embeddings1, embeddings2); dist = np.sum(np.square(diff), 1)`
(eval.py lines 63-64 and 136-137). -/
def distList (emb1 emb2 : List (List ℚ)) : List ℚ :=
  List.zipWith (fun r1 r2 => (List.zipWith (fun a b => (a - b) ^ 2) r1 r2).sum) emb1 emb2

/-- Start of sklearn `KFold` test fold `i`: the first `n % k` folds get one
extra element, so fold `i` starts after `i` full folds plus the extras. -/
def foldStart (k n i : Nat) : Nat := i * (n / k) + min i (n % k)

/-- Size of sklearn `KFold` test fold `i`. -/
def foldSize (k n i : Nat) : Nat := n / k + if i < n % k then 1 else 0

/-- sklearn `KFold(n_splits=k, shuffle=False).split(range(n))`, modelled from
its documented contract: `k` contiguous test folds covering `0..n-1`, the
first `n % k` folds one element larger; the train side is the complement in
increasing order. -/
def kfoldSplits (k n : Nat) : List (List Nat × List Nat) :=
  (List.range k).map (fun i =>
    ((List.range n).filter
        (fun x => decide (x < foldStart k n i) || decide (foldStart k n i + foldSize k n i ≤ x)),
     (List.range (foldSize k n i)).map (fun j => foldStart k n i + j)))

/-- `LFold.split` (eval.py lines 24-39): delegates to sklearn `KFold` when
`n_splits > 1` (which raises `ValueError` when there are fewer samples than
splits, per sklearn's documented contract), and otherwise yields the single
degenerate fold `(indices, indices)`. -/
def lfoldSplit (nSplits n : Nat) : Except String (List (List Nat × List Nat)) :=
  if 1 < nSplits then
    if n < nSplits then
      Except.error "ValueError: Cannot have number of splits greater than the number of samples"
    else Except.ok (kfoldSplits nSplits n)
  else Except.ok [(List.range n, List.range n)]

theorem foldStart_succ (k n i : Nat) :
    foldStart k n i + foldSize k n i = foldStart k n (i + 1) := by
  simp only [foldStart, foldSize, Nat.succ_mul]
  by_cases h : i < n % k
  · have h1 : min i (n % k) = i := Nat.min_eq_left (Nat.le_of_lt h)
    have h2 : min (i + 1) (n % k) = i + 1 := Nat.min_eq_left h
    rw [h1, h2, if_pos h]
    omega
  · have h1 : min i (n % k) = n % k := Nat.min_eq_right (Nat.le_of_not_lt h)
    have h2 : min (i + 1) (n % k) = n % k := Nat.min_eq_right (by omega)
    rw [h1, h2, if_neg h]
    omega

theorem foldStart_mono (k n : Nat) {i j : Nat} (h : i ≤ j) :
    foldStart k n i ≤ foldStart k n j := by
  simp only [foldStart]
  exact Nat.add_le_add (Nat.mul_le_mul_right _ h) (min_le_min h (le_refl _))

theorem foldStart_top (k n : Nat) (hk : 0 < k) : foldStart k n k = n := by
  simp only [foldStart]
  have hr : n % k < k := Nat.mod_lt _ hk
  rw [Nat.min_eq_right (Nat.le_of_lt hr)]
  exact Nat.div_add_mod n k

/-- Every index emitted by the fold splitter is in range. -/
theorem lfoldSplit_bounded {k n : Nat} {folds : List (List Nat × List Nat)}
    (h : lfoldSplit k n = Except.ok folds) :
    ∀ p ∈ folds, (∀ i ∈ p.1, i < n) ∧ (∀ i ∈ p.2, i < n) := by
  intro p hp
  simp only [lfoldSplit] at h
  by_cases hk : 1 < k
  · rw [if_pos hk] at h
    by_cases hn : n < k
    · rw [if_pos hn] at h; exact absurd h (by simp)
    · rw [if_neg hn] at h
      cases h
      simp only [kfoldSplits, List.mem_map] at hp
      obtain ⟨i, hi, hpi⟩ := hp
      have hik : i < k := List.mem_range.mp hi
      constructor
      · intro x hx
        rw [← hpi] at hx
        simp only [List.mem_filter] at hx
        exact List.mem_range.mp hx.1
      · intro x hx
        rw [← hpi] at hx
        simp only [List.mem_map, List.mem_range] at hx
        obtain ⟨j, hj, hxj⟩ := hx
        have hlt : foldStart k n i + foldSize k n i ≤ n := by
          rw [foldStart_succ]
          calc foldStart k n (i + 1) ≤ foldStart k n k := foldStart_mono k n hik
            _ = n := foldStart_top k n (by omega)
        omega
  · rw [if_neg hk] at h
    cases h
    simp only [List.mem_singleton] at hp
    rw [hp]
    exact ⟨fun i hi => List.mem_range.mp hi, fun i hi => List.mem_range.mp hi⟩

/-- Number of folds produced: exactly `nSplits` when `nSplits ≥ 1`. -/
theorem lfoldSplit_length {k n : Nat} {folds : List (List Nat × List Nat)}
    (h : lfoldSplit k n = Except.ok folds) (hk : 1 ≤ k) : folds.length = k := by
  simp only [lfoldSplit] at h
  by_cases hk1 : 1 < k
  · rw [if_pos hk1] at h
    by_cases hn : n < k
    · rw [if_pos hn] at h; exact absurd h (by simp)
    · rw [if_neg hn] at h
      cases h
      simp [kfoldSplits]
  · rw [if_neg hk1] at h
    cases h
    simp
    omega

/-- `predict_issame = np.less(dist, threshold)` (eval.py line 104, also
line 166): a pair is predicted "same" iff its distance is strictly below the
threshold. -/
def predict_issame (threshold : ℚ) (dist : List ℚ) : List Bool :=
  dist.map (fun d => decide (d < threshold))

/-- `tp = np.sum(np.logical_and(predict_issame, actual_issame))`
(eval.py line 105). -/
def tpCount (threshold : ℚ) (dist : List ℚ) (actual : List Bool) : Nat :=
  ((predict_issame threshold dist).zip actual).countP (fun p => p.1 && p.2)

/-- `fp = np.sum(np.logical_and(predict_issame, np.logical_not(actual_issame)))`
(eval.py line 106). -/
def fpCount (threshold : ℚ) (dist : List ℚ) (actual : List Bool) : Nat :=
  ((predict_issame threshold dist).zip actual).countP (fun p => p.1 && !p.2)

/-- `tn = np.sum(np.logical_and(np.logical_not(predict_issame), np.logical_not(actual_issame)))`
(eval.py lines 107-109). -/
def tnCount (threshold : ℚ) (dist : List ℚ) (actual : List Bool) : Nat :=
  ((predict_issame threshold dist).zip actual).countP (fun p => !p.1 && !p.2)

/-- `fn = np.sum(np.logical_and(np.logical_not(predict_issame), actual_issame))`
(eval.py line 110). -/
def fnCount (threshold : ℚ) (dist : List ℚ) (actual : List Bool) : Nat :=
  ((predict_issame threshold dist).zip actual).countP (fun p => !p.1 && p.2)

/-- `calculate_accuracy` (eval.py lines 100-115).  The two rates guard their
zero denominators explicitly; the accuracy `float(tp + tn) / dist.size`
does not, so an empty input raises `ZeroDivisionError`.  Arrays of unequal
length cannot be combined by `np.logical_and` (broadcast error); the
callers below always pass equal lengths. -/
def calculate_accuracy (threshold : ℚ) (dist : List ℚ) (actual : List Bool) :
    Except String (ℚ × ℚ × ℚ) :=
  if dist.length = actual.length then
    let tp := tpCount threshold dist actual
    let fp := fpCount threshold dist actual
    let tn := tnCount threshold dist actual
    let fn := fnCount threshold dist actual
    let tpr : ℚ := if tp + fn = 0 then 0 else (tp : ℚ) / ((tp : ℚ) + (fn : ℚ))
    let fpr : ℚ := if fp + tn = 0 then 0 else (fp : ℚ) / ((fp : ℚ) + (tn : ℚ))
    if dist.length = 0 then Except.error "ZeroDivisionError: float division by zero"
    else Except.ok (tpr, fpr, ((tp : ℚ) + (tn : ℚ)) / (dist.length : ℚ))
  else Except.error "ValueError: operands could not be broadcast together"

/-- `calculate_val_far` (eval.py lines 162-174).  Neither division is
guarded: `val = float(true_accept) / float(n_same)` raises
`ZeroDivisionError` when there is no "same" pair, and
`far = float(false_accept) / float(n_diff)` raises when there is no
"different" pair (the `val` line executes first). -/
def calculate_val_far (threshold : ℚ) (dist : List ℚ) (actual : List Bool) :
    Except String (ℚ × ℚ) :=
  if dist.length = actual.length then
    let predict := predict_issame threshold dist
    let trueAccept := (predict.zip actual).countP (fun p => p.1 && p.2)
    let falseAccept := (predict.zip actual).countP (fun p => p.1 && !p.2)
    let nSame := actual.countP (fun b => b)
    let nDiff := actual.countP (fun b => !b)
    if nSame = 0 then Except.error "ZeroDivisionError: float division by zero"
    else if nDiff = 0 then Except.error "ZeroDivisionError: float division by zero"
    else Except.ok ((trueAccept : ℚ) / (nSame : ℚ), (falseAccept : ℚ) / (nDiff : ℚ))
  else Except.error "ValueError: operands could not be broadcast together"

/-- The four confusion counts classify each (prediction, label) pair into
exactly one bucket, so they sum to the number of pairs. -/
theorem countP_confusion (l : List (Bool × Bool)) :
    l.countP (fun p => p.1 && p.2) + l.countP (fun p => p.1 && !p.2) +
      l.countP (fun p => !p.1 && !p.2) + l.countP (fun p => !p.1 && p.2) = l.length := by
  induction l with
  | nil => rfl
  | cons a l ih =>
    simp only [List.countP_cons, List.length_cons]
    cases h1 : a.1 <;> cases h2 : a.2 <;> simp [h1, h2] <;> omega

theorem confusion_counts_sum (threshold : ℚ) (dist : List ℚ) (actual : List Bool)
    (h : dist.length = actual.length) :
    tpCount threshold dist actual + fpCount threshold dist actual +
      tnCount threshold dist actual + fnCount threshold dist actual = dist.length := by
  have hz : ((predict_issame threshold dist).zip actual).length = dist.length := by
    simp [predict_issame, h]
  rw [tpCount, fpCount, tnCount, fnCount, countP_confusion, hz]

/-- One fold body of `calculate_roc` (eval.py lines 66-93, `pca = 0` path):
training accuracies over the grid, `np.argmax` to pick the best threshold,
the full test-set TPR/FPR curve, and the held-out accuracy at the selected
threshold, in the source's evaluation order. -/
def rocFold (thresholds : List ℚ) (dist : List ℚ) (labels : List Bool)
    (train test : List Nat) : Except String (List ℚ × List ℚ × ℚ) :=
  let distTrain := npIxQ dist train
  let labelsTrain := npIxB labels train
  let distTest := npIxQ dist test
  let labelsTest := npIxB labels test
  match mapExcept (fun t =>
      match calculate_accuracy t distTrain labelsTrain with
      | Except.error e => Except.error e
      | Except.ok r => Except.ok r.2.2) thresholds with
  | Except.error e => Except.error e
  | Except.ok accTrain =>
    match npArgmax accTrain with
    | Except.error e => Except.error e
    | Except.ok best =>
      match mapExcept (fun t =>
          match calculate_accuracy t distTest labelsTest with
          | Except.error e => Except.error e
          | Except.ok r => Except.ok (r.1, r.2.1)) thresholds with
      | Except.error e => Except.error e
      | Except.ok rows =>
        match calculate_accuracy (thresholds.getD best 0) distTest labelsTest with
        | Except.error e => Except.error e
        | Except.ok r => Except.ok (rows.map Prod.fst, rows.map Prod.snd, r.2.2)

/-- Pointwise column mean of a list of equal-length rows:
`np.mean(a, 0)` for a 2-D array of `width` columns. -/
def colMean (rows : List (List ℚ)) (width : Nat) : List ℚ :=
  (List.range width).map (fun j => (rows.map (fun r => r.getD j 0)).sum / (rows.length : ℚ))

/-- `calculate_roc` (eval.py lines 42-97), embedded on its `pca = 0` path
(the only one exercised by `evaluate`, line 185, whose `pca` defaults to 0).
The two `assert` statements become `AssertionError` outcomes; `nrof_pairs` is
`min(len(actual_issame), embeddings1.shape[0])` (line 53).  The preallocated
`tprs`/`fprs`/`accuracy` arrays have first dimension `nrof_folds`, so
`nrof_folds = 0` would make the first in-loop store an `IndexError`; it is
guarded up front here since no fold result could be stored anyway. -/
def calculate_roc (thresholds : List ℚ) (emb1 emb2 : List (List ℚ)) (labels : List Bool)
    (nrofFolds : Nat) : Except String (List ℚ × List ℚ × List ℚ) :=
  if emb1.length = emb2.length then
    if shape1 emb1 = shape1 emb2 then
      if nrofFolds = 0 then Except.error "IndexError: index 0 is out of bounds"
      else
        let nrofPairs := min labels.length emb1.length
        let dist := distList emb1 emb2
        match lfoldSplit nrofFolds nrofPairs with
        | Except.error e => Except.error e
        | Except.ok folds =>
          match mapExcept (fun p => rocFold thresholds dist labels p.1 p.2) folds with
          | Except.error e => Except.error e
          | Except.ok results =>
            Except.ok (colMean (results.map (fun r => r.1)) thresholds.length,
                       colMean (results.map (fun r => r.2.1)) thresholds.length,
                       results.map (fun r => r.2.2))
    else Except.error "AssertionError"
  else Except.error "AssertionError"

/-- Piecewise-linear evaluation over knots sorted by ascending abscissa:
walks consecutive knot pairs, interpolating linearly inside the first
segment containing `t`.  A query below the first or above the last knot is
a bounds error (scipy's `bounds_error=True` default); coincident
consecutive abscissae at the query point make the first-order spline
ill-defined and are surfaced as an error. -/
def pwEval : List (ℚ × ℚ) → ℚ → Except String ℚ
  | [], _ => Except.error "ValueError: interpolation over an empty point set"
  | [(x, y)], t =>
    if t = x then Except.ok y
    else Except.error "ValueError: A value in x_new is out of the interpolation range."
  | (x1, y1) :: (x2, y2) :: rest, t =>
    if t < x1 then Except.error "ValueError: A value in x_new is out of the interpolation range."
    else if t ≤ x2 then
      if x1 = x2 then Except.error "ValueError: interpolation knots with duplicate abscissae"
      else Except.ok (y1 + (y2 - y1) * (t - x1) / (x2 - x1))
    else pwEval ((x2, y2) :: rest) t

/-- Insertion of a point into a list sorted by ascending abscissa. -/
def insertByX (p : ℚ × ℚ) : List (ℚ × ℚ) → List (ℚ × ℚ)
  | [] => [p]
  | q :: qs => if q.1 ≤ p.1 then q :: insertByX p qs else p :: q :: qs

/-- Sort of the knot list by ascending abscissa (scipy's `interp1d` applies
`np.argsort` to its `x` argument when `assume_sorted` is false). -/
def sortByX : List (ℚ × ℚ) → List (ℚ × ℚ)
  | [] => []
  | p :: ps => insertByX p (sortByX ps)

/-- `scipy.interpolate.interp1d(x, y, kind='slinear')` evaluated at `t`
(eval.py lines 148-149), modelled from scipy's documented contract: the
points are sorted by `x`, and the first-order spline through them — i.e.
piecewise-linear interpolation of `y` as a function of `x` — is evaluated at
`t`, raising when `t` lies outside the knot range (`bounds_error` defaults
to true).  Duplicate abscissae make the spline ill-defined (scipy produces
nan or raises, version-dependent) and are modelled as an error. -/
def interp1dSlinear (xs ys : List ℚ) (t : ℚ) : Except String ℚ :=
  if xs.length = ys.length then pwEval (sortByX (xs.zip ys)) t
  else Except.error "ValueError: x and y arrays must be equal in length"

/-- One fold body of `calculate_val` (eval.py lines 140-154): the grid of
training FARs, the branch on `np.max(far_train) >= far_target` choosing
between interpolation and the 0.0 fallback, then `(VAL, FAR)` on the test
indices at the chosen threshold. -/
def valFold (thresholds : List ℚ) (dist : List ℚ) (labels : List Bool)
    (farTarget : ℚ) (train test : List Nat) : Except String (ℚ × ℚ) :=
  let distTrain := npIxQ dist train
  let labelsTrain := npIxB labels train
  let distTest := npIxQ dist test
  let labelsTest := npIxB labels test
  match mapExcept (fun t =>
      match calculate_val_far t distTrain labelsTrain with
      | Except.error e => Except.error e
      | Except.ok p => Except.ok p.2) thresholds with
  | Except.error e => Except.error e
  | Except.ok farTrain =>
    match npMax farTrain with
    | Except.error e => Except.error e
    | Except.ok mx =>
      match (if farTarget ≤ mx then interp1dSlinear farTrain thresholds farTarget
             else Except.ok 0) with
      | Except.error e => Except.error e
      | Except.ok thr => calculate_val_far thr distTest labelsTest

/-- `calculate_val` (eval.py lines 118-159).  Structure as in
`calculate_roc`: asserts, `nrof_pairs = min(len(actual_issame),
embeddings1.shape[0])`, fold loop, then `np.mean(val)`, `np.std(val)` and
`np.mean(far)`.  `np.std` is the population standard deviation (`ddof = 0`);
the embedding returns its square, the population variance, to stay inside
`ℚ` (the standard deviation is exactly its square root). -/
def calculate_val (thresholds : List ℚ) (emb1 emb2 : List (List ℚ)) (labels : List Bool)
    (farTarget : ℚ) (nrofFolds : Nat) : Except String (ℚ × ℚ × ℚ) :=
  if emb1.length = emb2.length then
    if shape1 emb1 = shape1 emb2 then
      if nrofFolds = 0 then Except.error "IndexError: index 0 is out of bounds"
      else
        let nrofPairs := min labels.length emb1.length
        let dist := distList emb1 emb2
        match lfoldSplit nrofFolds nrofPairs with
        | Except.error e => Except.error e
        | Except.ok folds =>
          match mapExcept (fun p => valFold thresholds dist labels farTarget p.1 p.2) folds with
          | Except.error e => Except.error e
          | Except.ok results =>
            let vals := results.map Prod.fst
            let fars := results.map Prod.snd
            Except.ok (meanQ vals, popVarQ vals, meanQ fars)
    else Except.error "AssertionError"
  else Except.error "AssertionError"

/-- Normalization of a Python/numpy slice endpoint against a length `n`:
negative endpoints count from the end, and both directions clamp into
`[0, n]`. -/
def pySliceIdx (n : Nat) (i : Int) : Nat :=
  if i < 0 then (min ((n : Int) + i) (n : Int)).toNat
  else (min i (n : Int)).toNat

/-- Python/numpy basic slice `a[lo:hi]`. -/
def pySlice {α : Type} (a : List α) (lo hi : Int) : List α :=
  let l := pySliceIdx a.length lo
  let h := pySliceIdx a.length hi
  (a.drop l).take (h - l)

/-- Numpy basic-slice assignment `a[lo:hi] = src` along the first axis: the
source must match the selected length exactly, or have length one
(broadcast); any other mismatch raises a broadcast `ValueError`. -/
def npSetSlice {α : Type} (a : List α) (lo hi : Int) (src : List α) :
    Except String (List α) :=
  let l := pySliceIdx a.length lo
  let h := pySliceIdx a.length hi
  let m := h - l
  if src.length = m then Except.ok (a.take l ++ src ++ a.drop (l + m))
  else
    match src with
    | [s] => Except.ok (a.take l ++ List.replicate m s ++ a.drop (l + m))
    | _ => Except.error "ValueError: could not broadcast input array"

/-- The batching loop of `test` (eval.py lines 238-257) for one pass over
`data`, with each image modelled as one opaque rational sample and the
backbone as a function from an image batch to an embedding batch (one row
per input image, per the embedding-provider interface).  The loop is
embedded as written in the source:
`bb = min(ba + batch_size, n)`; `b_data = data[bb - batch_size : bb]`;
the pixel normalization `((b_data / 255) - 0.5) / 0.5`;
`embeddings = net_out.asnumpy()` REBINDS `embeddings` to the batch output,
so the following `if embeddings is None` allocation branch is dead code and
is omitted (it can never fire after the rebinding), and
`embeddings[ba:bb, :] = embeddings[(batch_size - count):, :]` is a slice
assignment into the batch output itself.  Returns how many times the
backbone was called together with the outcome.  The fuel argument bounds
the iteration count; `data.length + 1` suffices for any `batch_size ≥ 1`
(with `batch_size = 0` the Python loop never advances, and the fuel running
out mirrors its divergence). -/
def testBatchLoop (embed : List ℚ → List (List ℚ)) (data : List ℚ) (batchSize : Nat) :
    Nat → Nat → List (List ℚ) → Nat → Nat × Except String (List (List ℚ))
  | 0, _, _, calls => (calls, Except.error "loop does not terminate")
  | fuel + 1, ba, emb, calls =>
    if ba < data.length then
      let bb := min (ba + batchSize) data.length
      let count := bb - ba
      let bData := pySlice data ((bb : Int) - (batchSize : Int)) (bb : Int)
      let img := bData.map (fun x => (x / 255 - 1 / 2) / (1 / 2))
      let batchOut := embed img
      match npSetSlice batchOut (ba : Int) (bb : Int)
          (pySlice batchOut ((batchSize : Int) - (count : Int)) (batchOut.length : Int)) with
      | Except.error e => (calls + 1, Except.error e)
      | Except.ok emb2 => testBatchLoop embed data batchSize fuel bb emb2 (calls + 1)
    else (calls, Except.ok emb)

/-- One full pass of the `test` batching loop: starts at `ba = 0` with
`embeddings = None` — modelled as the empty aggregate, which the loop body
never reads before overwriting (and which is returned unchanged only for an
empty dataset, where the Python code would carry `None` onward). -/
def testBatchRun (embed : List ℚ → List (List ℚ)) (data : List ℚ) (batchSize : Nat) :
    Nat × Except String (List (List ℚ)) :=
  testBatchLoop embed data batchSize (data.length + 1) 0 [] 0

/-- Counting pairs of the zipped (prediction, label) list equals counting
over the raw (distance, label) pairs with the prediction rule inlined. -/
theorem count_pred_zip (t : ℚ) (g : Bool → Bool → Bool) :
    ∀ (dist : List ℚ) (labels : List Bool),
      ((predict_issame t dist).zip labels).countP (fun p => g p.1 p.2) =
        (dist.zip labels).countP (fun p => g (decide (p.1 < t)) p.2) := by
  intro dist
  induction dist with
  | nil => intro labels; simp [predict_issame]
  | cons d ds ih =>
    intro labels
    cases labels with
    | nil => simp [predict_issame]
    | cons b bs =>
      simp only [predict_issame, List.map_cons, List.zip_cons_cons, List.countP_cons]
      have := ih bs
      simp only [predict_issame] at this
      rw [this]

/-- Specification-side true-positive count: pairs whose distance is strictly
below the threshold (boundary ties predicted "different") and whose label is
"same". -/
def specTP (t : ℚ) (dist : List ℚ) (labels : List Bool) : Nat :=
  (dist.zip labels).countP (fun p => decide (p.1 < t) && p.2)

/-- Specification-side false-positive count. -/
def specFP (t : ℚ) (dist : List ℚ) (labels : List Bool) : Nat :=
  (dist.zip labels).countP (fun p => decide (p.1 < t) && !p.2)

/-- Specification-side true-negative count. -/
def specTN (t : ℚ) (dist : List ℚ) (labels : List Bool) : Nat :=
  (dist.zip labels).countP (fun p => !(decide (p.1 < t)) && !p.2)

/-- Specification-side false-negative count. -/
def specFN (t : ℚ) (dist : List ℚ) (labels : List Bool) : Nat :=
  (dist.zip labels).countP (fun p => !(decide (p.1 < t)) && p.2)

/-- A rate with the zero-denominator convention: `0` instead of `NaN`. -/
def specRate (num den : Nat) : ℚ := if den = 0 then 0 else (num : ℚ) / (den : ℚ)

theorem tpCount_eq_specTP (t : ℚ) (dist : List ℚ) (labels : List Bool) :
    tpCount t dist labels = specTP t dist labels :=
  count_pred_zip t (fun a b => a && b) dist labels

theorem fpCount_eq_specFP (t : ℚ) (dist : List ℚ) (labels : List Bool) :
    fpCount t dist labels = specFP t dist labels :=
  count_pred_zip t (fun a b => a && !b) dist labels

theorem tnCount_eq_specTN (t : ℚ) (dist : List ℚ) (labels : List Bool) :
    tnCount t dist labels = specTN t dist labels :=
  count_pred_zip t (fun a b => !a && !b) dist labels

theorem fnCount_eq_specFN (t : ℚ) (dist : List ℚ) (labels : List Bool) :
    fnCount t dist labels = specFN t dist labels :=
  count_pred_zip t (fun a b => !a && b) dist labels

/-- A 70-image dataset, one opaque rational sample per image. -/
def c1Data : List ℚ := (List.range 70).map (fun i => (i : ℚ))

/-- A well-behaved embedding provider: one embedding row per input image, in
order, per the external-interface contract of the specification. -/
def c1Embed (img : List ℚ) : List (List ℚ) := img.map (fun x => [x])

/-- C1: the claim says that for 70 images and batch size 32 the harness
calls the embedding function ceil(70/32) = 3 times and aggregates exactly 70
embeddings, discarding the padding outputs.  The code does neither: because
`embeddings = net_out.asnumpy()` rebinds the aggregate to each batch output
(leaving the `if embeddings is None` allocation branch dead), the second
batch's store `embeddings[32:64, :] = embeddings[0:, :]` tries to broadcast
32 rows into an empty slice of the 32-row batch output and raises a numpy
`ValueError` — after only 2 backbone calls, with no aggregate returned. -/
theorem C1_test_batching_code_behavior :
    c1Data.length = 70 ∧
    (∀ img : List ℚ, (c1Embed img).length = img.length) ∧
    testBatchRun c1Embed c1Data 32 =
      (2, Except.error "ValueError: could not broadcast input array") := by
  refine ⟨by decide, fun img => by simp [c1Embed], by decide⟩

/-- C2 counterexample: on the all-same input `dist = [1]`, `labels = [true]`
(at threshold 1/2), `calculate_val_far` raises `ZeroDivisionError` instead
of returning normally with FAR 0 as the claim states. -/
theorem C2_counterexample :
    calculate_val_far (1 / 2) [1] [true] =
      Except.error "ZeroDivisionError: float division by zero" := by decide

/-- C2 (amended): for every threshold and every (distance, label) input
whose labels are all true, `calculate_val_far` raises `ZeroDivisionError`
(the unguarded FAR division by `n_diff = 0`; for the empty input the VAL
division by `n_same = 0` raises first) rather than returning FAR 0. -/
theorem C2_all_same_labels_raise (t : ℚ) (dist : List ℚ) (labels : List Bool)
    (hlen : dist.length = labels.length) (hall : ∀ b ∈ labels, b = true) :
    calculate_val_far t dist labels =
      Except.error "ZeroDivisionError: float division by zero" := by
  have hdiff : labels.countP (fun b => !b) = 0 := by
    rw [List.countP_eq_zero]
    intro b hb
    simp [hall b hb]
  simp only [calculate_val_far, if_pos hlen]
  by_cases hsame : labels.countP (fun b => b) = 0
  · rw [if_pos hsame]
  · rw [if_neg hsame, if_pos hdiff]

theorem C2_all_same_labels_raise_witness :
    ([(1 : ℚ)].length = [true].length) ∧ (∀ b ∈ [true], b = true) ∧
    calculate_val_far 1 [1] [true] =
      Except.error "ZeroDivisionError: float division by zero" :=
  ⟨by decide, by decide, C2_all_same_labels_raise 1 [1] [true] (by decide) (by decide)⟩

/-- C3: with `1 < k` folds and fewer pairs than folds, the fold splitter
signals an error (sklearn's `ValueError`, the concrete form of the
specification's `ConfigurationError`) instead of silently yielding empty
folds, and `calculate_roc` and `calculate_val` propagate it. -/
theorem C3_fold_count_exceeds_samples (n k : Nat) (th : List ℚ)
    (e1 e2 : List (List ℚ)) (lb : List Bool) (tgt : ℚ)
    (hk : 1 < k) (hn : n < k)
    (hlen : e1.length = e2.length) (hdim : shape1 e1 = shape1 e2)
    (hpairs : min lb.length e1.length < k) :
    lfoldSplit k n =
      Except.error "ValueError: Cannot have number of splits greater than the number of samples" ∧
    calculate_roc th e1 e2 lb k =
      Except.error "ValueError: Cannot have number of splits greater than the number of samples" ∧
    calculate_val th e1 e2 lb tgt k =
      Except.error "ValueError: Cannot have number of splits greater than the number of samples" := by
  have hsplit : ∀ m, m < k → lfoldSplit k m =
      Except.error "ValueError: Cannot have number of splits greater than the number of samples" := by
    intro m hm
    simp only [lfoldSplit, if_pos hk, if_pos hm]
  refine ⟨hsplit n hn, ?_, ?_⟩
  · simp only [calculate_roc, if_pos hlen, if_pos hdim, if_neg (by omega : ¬k = 0),
      hsplit _ hpairs]
  · simp only [calculate_val, if_pos hlen, if_pos hdim, if_neg (by omega : ¬k = 0),
      hsplit _ hpairs]

theorem C3_fold_count_exceeds_samples_witness :
    (1 < 3) ∧ (2 < 3) ∧ (([[(0 : ℚ)]] : List (List ℚ)).length = [[(0 : ℚ)]].length) ∧
    (shape1 [[(0 : ℚ)]] = shape1 [[(0 : ℚ)]]) ∧ (min [true].length [[(0 : ℚ)]].length < 3) ∧
    (lfoldSplit 3 2 =
      Except.error "ValueError: Cannot have number of splits greater than the number of samples" ∧
    calculate_roc [1] [[(0 : ℚ)]] [[(0 : ℚ)]] [true] 3 =
      Except.error "ValueError: Cannot have number of splits greater than the number of samples" ∧
    calculate_val [1] [[(0 : ℚ)]] [[(0 : ℚ)]] [true] 1 3 =
      Except.error "ValueError: Cannot have number of splits greater than the number of samples") :=
  ⟨by decide, by decide, by decide, by decide, by decide,
    C3_fold_count_exceeds_samples 2 3 [1] [[(0 : ℚ)]] [[(0 : ℚ)]] [true] 1
      (by decide) (by decide) (by decide) (by decide) (by decide)⟩

/-- C6 counterexample: on the empty (equal-length) input the claim's "for
every threshold, distance array, and equal-length label array, ... returns"
fails — the accuracy division `float(tp + tn) / dist.size` has a zero
denominator and `calculate_accuracy` raises `ZeroDivisionError` instead of
returning the stated triple. -/
theorem C6_counterexample :
    calculate_accuracy 1 [] [] =
      Except.error "ZeroDivisionError: float division by zero" := by decide

/-- C6 (amended: restricted to nonempty inputs, as the empty-input
counterexample forces): for every threshold and nonempty equal-length input,
`calculate_accuracy` predicts "same" exactly on strict inequality
`distance < threshold` and returns `tpr = TP/(TP+FN)`, `fpr = FP/(FP+TN)`,
`accuracy = (TP+TN)/total`, with a zero-denominator rate defined as 0. -/
theorem C6_accuracy_rates (t : ℚ) (dist : List ℚ) (labels : List Bool)
    (hlen : dist.length = labels.length) (hne : dist ≠ []) :
    calculate_accuracy t dist labels =
      Except.ok (specRate (specTP t dist labels) (specTP t dist labels + specFN t dist labels),
        specRate (specFP t dist labels) (specFP t dist labels + specTN t dist labels),
        ((specTP t dist labels : ℚ) + (specTN t dist labels : ℚ)) / (dist.length : ℚ)) := by
  have hz : ¬dist.length = 0 := by
    intro h
    exact hne (List.length_eq_zero.mp h)
  simp only [calculate_accuracy, if_pos hlen, if_neg hz, specRate,
    tpCount_eq_specTP, fpCount_eq_specFP, tnCount_eq_specTN, fnCount_eq_specFN,
    Nat.cast_add]

theorem C6_accuracy_rates_witness :
    (([(0 : ℚ), 1].length = [true, false].length) ∧ ([(0 : ℚ), 1] ≠ [])) ∧
    calculate_accuracy 1 [0, 1] [true, false] =
      Except.ok (specRate (specTP 1 [0, 1] [true, false])
          (specTP 1 [0, 1] [true, false] + specFN 1 [0, 1] [true, false]),
        specRate (specFP 1 [0, 1] [true, false])
          (specFP 1 [0, 1] [true, false] + specTN 1 [0, 1] [true, false]),
        ((specTP 1 [0, 1] [true, false] : ℚ) + (specTN 1 [0, 1] [true, false] : ℚ)) /
          (([(0 : ℚ), 1] : List ℚ).length : ℚ)) :=
  ⟨⟨by decide, by decide⟩, C6_accuracy_rates 1 [0, 1] [true, false] (by decide) (by decide)⟩

/-- C7: whenever `calculate_accuracy` returns, each of the three returned
values lies in `[0, 1]`. -/
theorem C7_rate_bounds (t : ℚ) (dist : List ℚ) (labels : List Bool) (tpr fpr acc : ℚ)
    (h : calculate_accuracy t dist labels = Except.ok (tpr, fpr, acc)) :
    0 ≤ tpr ∧ tpr ≤ 1 ∧ 0 ≤ fpr ∧ fpr ≤ 1 ∧ 0 ≤ acc ∧ acc ≤ 1 := by
  by_cases hlen : dist.length = labels.length
  · simp only [calculate_accuracy, if_pos hlen] at h
    by_cases hz : dist.length = 0
    · rw [if_pos hz] at h
      exact absurd h (by simp)
    · rw [if_neg hz] at h
      simp only [Except.ok.injEq, Prod.mk.injEq] at h
      obtain ⟨h1, h2, h3⟩ := h
      have hrate : ∀ a b : Nat, (0 : ℚ) ≤ (if a + b = 0 then (0 : ℚ)
          else (a : ℚ) / ((a : ℚ) + (b : ℚ))) ∧
          (if a + b = 0 then (0 : ℚ) else (a : ℚ) / ((a : ℚ) + (b : ℚ))) ≤ 1 := by
        intro a b
        by_cases hab : a + b = 0
        · simp [hab]
        · rw [if_neg hab]
          have hpos : (0 : ℚ) < (a : ℚ) + (b : ℚ) := by
            have : 0 < a + b := Nat.pos_of_ne_zero hab
            exact_mod_cast this
          constructor
          · exact div_nonneg (by positivity) (le_of_lt hpos)
          · rw [div_le_one hpos]
            have hb0 : (0 : ℚ) ≤ (b : ℚ) := by positivity
            linarith
      have hsum := confusion_counts_sum t dist labels hlen
      have hlenpos : (0 : ℚ) < (dist.length : ℚ) := by
        have : 0 < dist.length := Nat.pos_of_ne_zero hz
        exact_mod_cast this
      refine ⟨?_, ?_, ?_, ?_, ?_, ?_⟩
      · rw [← h1]; exact (hrate _ _).1
      · rw [← h1]; exact (hrate _ _).2
      · rw [← h2]; exact (hrate _ _).1
      · rw [← h2]; exact (hrate _ _).2
      · rw [← h3]
        exact div_nonneg (by positivity) (le_of_lt hlenpos)
      · rw [← h3, div_le_one hlenpos]
        have hle : tpCount t dist labels + tnCount t dist labels ≤ dist.length := by omega
        exact_mod_cast hle
  · simp only [calculate_accuracy, if_neg hlen] at h
    exact absurd h (by simp)

theorem C7_rate_bounds_witness :
    (calculate_accuracy 1 [0] [true] = Except.ok (1, 0, 1)) ∧
    ((0 : ℚ) ≤ 1 ∧ (1 : ℚ) ≤ 1 ∧ (0 : ℚ) ≤ 0 ∧ (0 : ℚ) ≤ 1 ∧ (0 : ℚ) ≤ 1 ∧ (1 : ℚ) ≤ 1) :=
  ⟨by decide, C7_rate_bounds 1 [0] [true] 1 0 1 (by decide)⟩

/-- C8: for a fixed distance array, the number of pairs predicted "same" by
the prediction rule inside `calculate_accuracy` is monotone non-decreasing
in the threshold. -/
theorem C8_predicted_same_monotone (dist : List ℚ) (t1 t2 : ℚ) (h : t1 ≤ t2) :
    (predict_issame t1 dist).countP (fun b => b) ≤
      (predict_issame t2 dist).countP (fun b => b) := by
  induction dist with
  | nil => simp [predict_issame]
  | cons d ds ih =>
    simp only [predict_issame, List.map_cons, List.countP_cons] at ih ⊢
    by_cases hd : d < t1
    · have hd2 : d < t2 := lt_of_lt_of_le hd h
      simp only [hd, hd2, decide_True]
      omega
    · by_cases hd2 : d < t2
      · simp only [hd, hd2, decide_True, decide_False, if_true, if_false,
          Bool.false_eq_true]
        omega
      · simp only [hd, hd2, decide_False]
        omega

theorem C8_predicted_same_monotone_witness :
    ((1 : ℚ) ≤ 2) ∧
    (predict_issame 1 [0, 1, 3]).countP (fun b => b) ≤
      (predict_issame 2 [0, 1, 3]).countP (fun b => b) :=
  ⟨by decide, C8_predicted_same_monotone [0, 1, 3] 1 2 (by decide)⟩

/-- C10: the four confusion counts computed inside `calculate_accuracy`
partition the pairs — they sum to the number of pairs — and the returned
accuracy is `(TP+TN)` divided by that number. -/
theorem C10_confusion_partition (t : ℚ) (dist : List ℚ) (labels : List Bool)
    (hlen : dist.length = labels.length) :
    tpCount t dist labels + fpCount t dist labels + tnCount t dist labels +
        fnCount t dist labels = dist.length ∧
      ∀ tpr fpr acc, calculate_accuracy t dist labels = Except.ok (tpr, fpr, acc) →
        acc = ((tpCount t dist labels : ℚ) + (tnCount t dist labels : ℚ)) /
          (dist.length : ℚ) := by
  refine ⟨confusion_counts_sum t dist labels hlen, ?_⟩
  intro tpr fpr acc h
  simp only [calculate_accuracy, if_pos hlen] at h
  by_cases hz : dist.length = 0
  · rw [if_pos hz] at h
    exact absurd h (by simp)
  · rw [if_neg hz] at h
    simp only [Except.ok.injEq, Prod.mk.injEq] at h
    exact h.2.2.symm

theorem C10_confusion_partition_witness :
    (([(0 : ℚ), 2].length = [true, false].length)) ∧
    (tpCount 1 [0, 2] [true, false] + fpCount 1 [0, 2] [true, false] +
        tnCount 1 [0, 2] [true, false] + fnCount 1 [0, 2] [true, false] =
        ([(0 : ℚ), 2] : List ℚ).length ∧
      ∀ tpr fpr acc, calculate_accuracy 1 [0, 2] [true, false] = Except.ok (tpr, fpr, acc) →
        acc = ((tpCount 1 [0, 2] [true, false] : ℚ) + (tnCount 1 [0, 2] [true, false] : ℚ)) /
          (([(0 : ℚ), 2] : List ℚ).length : ℚ)) :=
  ⟨by decide, C10_confusion_partition 1 [0, 2] [true, false] (by decide)⟩

theorem getD_take {α : Type} (d : α) :
    ∀ (l : List α) (n i : Nat), i < n → (l.take n).getD i d = l.getD i d := by
  intro l
  induction l with
  | nil => intro n i _; simp
  | cons x xs ih =>
    intro n i hi
    cases n with
    | zero => omega
    | succ m =>
      cases i with
      | zero => simp
      | succ j =>
        simp only [List.take_succ_cons, List.getD_cons_succ]
        exact ih m j (by omega)

theorem distList_take_getD :
    ∀ (e1 e2 : List (List ℚ)) (n i : Nat), i < n →
      (distList (e1.take n) (e2.take n)).getD i 0 = (distList e1 e2).getD i 0 := by
  intro e1
  induction e1 with
  | nil => intro e2 n i _; simp [distList]
  | cons r1 rs1 ih =>
    intro e2 n i hi
    cases e2 with
    | nil => simp [distList]
    | cons r2 rs2 =>
      cases n with
      | zero => omega
      | succ m =>
        cases i with
        | zero => simp [distList]
        | succ j =>
          simp only [List.take_succ_cons, distList, List.zipWith_cons_cons,
            List.getD_cons_succ]
          exact ih rs2 m j (by omega)

theorem npIxQ_dist_take {e1 e2 : List (List ℚ)} {n : Nat} :
    ∀ {ixs : List Nat}, (∀ i ∈ ixs, i < n) →
      npIxQ (distList e1 e2) ixs = npIxQ (distList (e1.take n) (e2.take n)) ixs := by
  intro ixs
  induction ixs with
  | nil => intro _; rfl
  | cons i is ih =>
    intro h
    simp only [npIxQ, List.map_cons]
    rw [distList_take_getD e1 e2 n i (h i (by simp))]
    have htail := ih (fun j hj => h j (by simp [hj]))
    simp only [npIxQ] at htail
    rw [htail]

theorem npIxB_take {lb : List Bool} {n : Nat} :
    ∀ {ixs : List Nat}, (∀ i ∈ ixs, i < n) →
      npIxB lb ixs = npIxB (lb.take n) ixs := by
  intro ixs
  induction ixs with
  | nil => intro _; rfl
  | cons i is ih =>
    intro h
    simp only [npIxB, List.map_cons]
    rw [getD_take false lb n i (h i (by simp))]
    have htail := ih (fun j hj => h j (by simp [hj]))
    simp only [npIxB] at htail
    rw [htail]

theorem rocFold_congr {th : List ℚ} {dist dist' : List ℚ} {lb lb' : List Bool}
    {tr te : List Nat}
    (h1 : npIxQ dist tr = npIxQ dist' tr) (h2 : npIxB lb tr = npIxB lb' tr)
    (h3 : npIxQ dist te = npIxQ dist' te) (h4 : npIxB lb te = npIxB lb' te) :
    rocFold th dist lb tr te = rocFold th dist' lb' tr te := by
  simp only [rocFold, h1, h2, h3, h4]

theorem valFold_congr {th : List ℚ} {dist dist' : List ℚ} {lb lb' : List Bool}
    {tgt : ℚ} {tr te : List Nat}
    (h1 : npIxQ dist tr = npIxQ dist' tr) (h2 : npIxB lb tr = npIxB lb' tr)
    (h3 : npIxQ dist te = npIxQ dist' te) (h4 : npIxB lb te = npIxB lb' te) :
    valFold th dist lb tgt tr te = valFold th dist' lb' tgt tr te := by
  simp only [valFold, h1, h2, h3, h4]

theorem shape1_take (l : List (List ℚ)) (n : Nat) (hn : 0 < n) :
    shape1 (l.take n) = shape1 l := by
  cases l with
  | nil => simp
  | cons x xs =>
    cases n with
    | zero => omega
    | succ m => simp [shape1]

/-- C9: with mismatched label/pair lengths, `calculate_roc` and
`calculate_val` silently evaluate only the first
`min(len(labels), len(embeddings1))` pairs: the result equals the result on
the inputs truncated to that common length. -/
theorem C9_mismatch_truncation (th : List ℚ) (e1 e2 : List (List ℚ))
    (lb : List Bool) (tgt : ℚ) (k : Nat)
    (hlen : e1.length = e2.length) (hdim : shape1 e1 = shape1 e2) :
    calculate_roc th e1 e2 lb k =
      calculate_roc th (e1.take (min lb.length e1.length))
        (e2.take (min lb.length e1.length)) (lb.take (min lb.length e1.length)) k ∧
    calculate_val th e1 e2 lb tgt k =
      calculate_val th (e1.take (min lb.length e1.length))
        (e2.take (min lb.length e1.length)) (lb.take (min lb.length e1.length)) tgt k := by
  set n := min lb.length e1.length with hn
  have hnle1 : n ≤ e1.length := Nat.min_le_right _ _
  have hnllb : n ≤ lb.length := Nat.min_le_left _ _
  have hlen2 : (e1.take n).length = (e2.take n).length := by
    simp [List.length_take, hlen]
  have hdim2 : shape1 (e1.take n) = shape1 (e2.take n) := by
    by_cases h0 : n = 0
    · simp [h0, shape1]
    · rw [shape1_take _ _ (Nat.pos_of_ne_zero h0), shape1_take _ _ (Nat.pos_of_ne_zero h0),
        hdim]
  have hmin2 : min (lb.take n).length (e1.take n).length = n := by
    simp only [List.length_take]
    omega
  by_cases hk0 : k = 0
  · constructor
    · simp only [calculate_roc, if_pos hlen, if_pos hlen2, if_pos hdim, if_pos hdim2,
        if_pos hk0]
    · simp only [calculate_val, if_pos hlen, if_pos hlen2, if_pos hdim, if_pos hdim2,
        if_pos hk0]
  · constructor
    · simp only [calculate_roc, if_pos hlen, if_pos hlen2, if_pos hdim, if_pos hdim2,
        if_neg hk0, hmin2, ← hn]
      cases hsplit : lfoldSplit k n with
      | error e => rfl
      | ok folds =>
        have hmap : mapExcept (fun p => rocFold th (distList e1 e2) lb p.1 p.2) folds
            = mapExcept
                (fun p => rocFold th (distList (e1.take n) (e2.take n)) (lb.take n) p.1 p.2)
                folds := by
          apply mapExcept_congr
          intro p hp
          obtain ⟨htr, hte⟩ := lfoldSplit_bounded hsplit p hp
          exact rocFold_congr (npIxQ_dist_take htr) (npIxB_take htr)
            (npIxQ_dist_take hte) (npIxB_take hte)
        simp only [hmap]
    · simp only [calculate_val, if_pos hlen, if_pos hlen2, if_pos hdim, if_pos hdim2,
        if_neg hk0, hmin2, ← hn]
      cases hsplit : lfoldSplit k n with
      | error e => rfl
      | ok folds =>
        have hmap : mapExcept (fun p => valFold th (distList e1 e2) lb tgt p.1 p.2) folds
            = mapExcept
                (fun p =>
                  valFold th (distList (e1.take n) (e2.take n)) (lb.take n) tgt p.1 p.2)
                folds := by
          apply mapExcept_congr
          intro p hp
          obtain ⟨htr, hte⟩ := lfoldSplit_bounded hsplit p hp
          exact valFold_congr (npIxQ_dist_take htr) (npIxB_take htr)
            (npIxQ_dist_take hte) (npIxB_take hte)
        simp only [hmap]

theorem C9_mismatch_truncation_witness :
    (([[(0 : ℚ)], [1]] : List (List ℚ)).length = ([[(0 : ℚ)], [2]] : List (List ℚ)).length) ∧
    (shape1 [[(0 : ℚ)], [1]] = shape1 [[(0 : ℚ)], [2]]) ∧
    (calculate_roc [1] [[(0 : ℚ)], [1]] [[(0 : ℚ)], [2]] [true, false, true] 1 =
      calculate_roc [1]
        ([[(0 : ℚ)], [1]].take (min [true, false, true].length [[(0 : ℚ)], [1]].length))
        ([[(0 : ℚ)], [2]].take (min [true, false, true].length [[(0 : ℚ)], [1]].length))
        ([true, false, true].take (min [true, false, true].length [[(0 : ℚ)], [1]].length)) 1 ∧
    calculate_val [1] [[(0 : ℚ)], [1]] [[(0 : ℚ)], [2]] [true, false, true] 1 1 =
      calculate_val [1]
        ([[(0 : ℚ)], [1]].take (min [true, false, true].length [[(0 : ℚ)], [1]].length))
        ([[(0 : ℚ)], [2]].take (min [true, false, true].length [[(0 : ℚ)], [1]].length))
        ([true, false, true].take (min [true, false, true].length [[(0 : ℚ)], [1]].length)) 1 1) :=
  ⟨by decide, by decide,
    C9_mismatch_truncation [1] [[(0 : ℚ)], [1]] [[(0 : ℚ)], [2]] [true, false, true] 1 1
      (by decide) (by decide)⟩

theorem valFold_ok_inv {th dist : List ℚ} {lb : List Bool} {tgt : ℚ}
    {tr te : List Nat} {v f : ℚ}
    (h : valFold th dist lb tgt tr te = Except.ok (v, f)) :
    ∃ farTrain mx thr,
      mapExcept (fun t =>
          match calculate_val_far t (npIxQ dist tr) (npIxB lb tr) with
          | Except.error e => Except.error e
          | Except.ok p => Except.ok p.2) th = Except.ok farTrain ∧
      npMax farTrain = Except.ok mx ∧
      ((tgt ≤ mx ∧ interp1dSlinear farTrain th tgt = Except.ok thr) ∨
        (¬tgt ≤ mx ∧ thr = 0)) ∧
      calculate_val_far thr (npIxQ dist te) (npIxB lb te) = Except.ok (v, f) := by
  simp only [valFold] at h
  cases hfar : mapExcept (fun t =>
      match calculate_val_far t (npIxQ dist tr) (npIxB lb tr) with
      | Except.error e => Except.error e
      | Except.ok p => Except.ok p.2) th with
  | error e => rw [hfar] at h; simp at h
  | ok farTrain =>
    rw [hfar] at h
    simp only at h
    cases hmx : npMax farTrain with
    | error e => rw [hmx] at h; simp at h
    | ok mx =>
      rw [hmx] at h
      simp only at h
      by_cases hbr : tgt ≤ mx
      · rw [if_pos hbr] at h
        cases hint : interp1dSlinear farTrain th tgt with
        | error e => rw [hint] at h; simp at h
        | ok thr =>
          rw [hint] at h
          simp only at h
          exact ⟨farTrain, mx, thr, rfl, hmx, Or.inl ⟨hbr, hint⟩, h⟩
      · rw [if_neg hbr] at h
        simp only at h
        exact ⟨farTrain, mx, 0, rfl, hmx, Or.inr ⟨hbr, rfl⟩, h⟩

/-- C4: whenever `calculate_val` returns, its result decomposes fold by fold
as the claim describes: per fold, the training FAR at every grid threshold;
the fold threshold obtained by 1-D piecewise-linear interpolation of
threshold as a function of FAR at `targetFAR` when the maximum training FAR
reaches `targetFAR`, and `0.0` otherwise; the fold's `(VAL, FAR)` evaluated
on the test indices at that threshold; and the aggregates are the mean of
VAL, the population variance of VAL (the square of the population standard
deviation `np.std` returns), and the mean of FAR across folds. -/
theorem C4_val_threshold_selection (th : List ℚ) (e1 e2 : List (List ℚ)) (lb : List Bool)
    (tgt : ℚ) (k : Nat) (vm vv fm : ℚ)
    (h : calculate_val th e1 e2 lb tgt k = Except.ok (vm, vv, fm)) :
    ∃ (folds : List (List Nat × List Nat)) (results : List (ℚ × ℚ)),
      lfoldSplit k (min lb.length e1.length) = Except.ok folds ∧
      results.length = folds.length ∧
      (∀ i, i < folds.length →
        ∃ farTrain : List ℚ, farTrain.length = th.length ∧
          (∀ j, j < th.length → ∃ u,
            calculate_val_far (th.getD j 0)
                (npIxQ (distList e1 e2) (folds.getD i ([], [])).1)
                (npIxB lb (folds.getD i ([], [])).1) =
              Except.ok (u, farTrain.getD j 0)) ∧
          ∃ thr : ℚ,
            ((tgt ≤ maxQ farTrain ∧ interp1dSlinear farTrain th tgt = Except.ok thr) ∨
              (maxQ farTrain < tgt ∧ thr = 0)) ∧
            calculate_val_far thr
                (npIxQ (distList e1 e2) (folds.getD i ([], [])).2)
                (npIxB lb (folds.getD i ([], [])).2) =
              Except.ok (results.getD i (0, 0))) ∧
      vm = meanQ (results.map Prod.fst) ∧
      vv = popVarQ (results.map Prod.fst) ∧
      fm = meanQ (results.map Prod.snd) := by
  simp only [calculate_val] at h
  by_cases hlen : e1.length = e2.length
  swap
  · rw [if_neg hlen] at h; simp at h
  rw [if_pos hlen] at h
  by_cases hdim : shape1 e1 = shape1 e2
  swap
  · rw [if_neg hdim] at h; simp at h
  rw [if_pos hdim] at h
  by_cases hk0 : k = 0
  · rw [if_pos hk0] at h; simp at h
  rw [if_neg hk0] at h
  cases hsplit : lfoldSplit k (min lb.length e1.length) with
  | error e => rw [hsplit] at h; simp at h
  | ok folds =>
    rw [hsplit] at h
    simp only at h
    cases hmap : mapExcept
        (fun p : List Nat × List Nat =>
          valFold th (distList e1 e2) lb tgt p.1 p.2) folds with
    | error e => rw [hmap] at h; simp at h
    | ok results =>
      rw [hmap] at h
      simp only [Except.ok.injEq, Prod.mk.injEq] at h
      obtain ⟨h1, h2, h3⟩ := h
      refine ⟨folds, results, rfl, mapExcept_ok_length hmap, ?_, h1.symm, h2.symm, h3.symm⟩
      intro i hi
      have hfold := mapExcept_ok_getD ([], []) ((0 : ℚ), (0 : ℚ)) hmap i hi
      obtain ⟨farTrain, mx, thr, hfar, hmx, hbr, htest⟩ := valFold_ok_inv hfold
      have hmx2 : farTrain ≠ [] ∧ mx = maxQ farTrain := by
        simp only [npMax] at hmx
        by_cases he : farTrain = []
        · rw [if_pos he] at hmx; simp at hmx
        · rw [if_neg he] at hmx
          simp only [Except.ok.injEq] at hmx
          exact ⟨he, hmx.symm⟩
      refine ⟨farTrain, mapExcept_ok_length hfar, ?_, thr, ?_, htest⟩
      · intro j hj
        have hitem := mapExcept_ok_getD (0 : ℚ) (0 : ℚ) hfar j hj
        cases hc : calculate_val_far (th.getD j 0)
            (npIxQ (distList e1 e2) (folds.getD i ([], [])).1)
            (npIxB lb (folds.getD i ([], [])).1) with
        | error e => rw [hc] at hitem; simp at hitem
        | ok p =>
          rw [hc] at hitem
          simp only [Except.ok.injEq] at hitem
          exact ⟨p.1, by rw [← hitem]⟩
      · rcases hbr with ⟨hle, hint⟩ | ⟨hgt, hthr⟩
        · exact Or.inl ⟨hmx2.2 ▸ hle, hint⟩
        · exact Or.inr ⟨by rw [← hmx2.2]; exact lt_of_not_le hgt, hthr⟩

theorem C4_val_threshold_selection_witness :
    (calculate_val [2] [[0], [0]] [[1], [2]] [true, false] (1 / 2) 1 =
      Except.ok (0, 0, 0)) ∧
    (∃ (folds : List (List Nat × List Nat)) (results : List (ℚ × ℚ)),
      lfoldSplit 1 (min ([true, false] : List Bool).length
          ([[(0 : ℚ)], [0]] : List (List ℚ)).length) = Except.ok folds ∧
      results.length = folds.length ∧
      (∀ i, i < folds.length →
        ∃ farTrain : List ℚ, farTrain.length = ([(2 : ℚ)] : List ℚ).length ∧
          (∀ j, j < ([(2 : ℚ)] : List ℚ).length → ∃ u,
            calculate_val_far (([(2 : ℚ)] : List ℚ).getD j 0)
                (npIxQ (distList [[(0 : ℚ)], [0]] [[(1 : ℚ)], [2]])
                  (folds.getD i ([], [])).1)
                (npIxB [true, false] (folds.getD i ([], [])).1) =
              Except.ok (u, farTrain.getD j 0)) ∧
          ∃ thr : ℚ,
            ((1 / 2 ≤ maxQ farTrain ∧
                interp1dSlinear farTrain [(2 : ℚ)] (1 / 2) = Except.ok thr) ∨
              (maxQ farTrain < 1 / 2 ∧ thr = 0)) ∧
            calculate_val_far thr
                (npIxQ (distList [[(0 : ℚ)], [0]] [[(1 : ℚ)], [2]])
                  (folds.getD i ([], [])).2)
                (npIxB [true, false] (folds.getD i ([], [])).2) =
              Except.ok (results.getD i (0, 0))) ∧
      (0 : ℚ) = meanQ (results.map Prod.fst) ∧
      (0 : ℚ) = popVarQ (results.map Prod.fst) ∧
      (0 : ℚ) = meanQ (results.map Prod.snd)) :=
  ⟨by decide,
    C4_val_threshold_selection [2] [[0], [0]] [[1], [2]] [true, false] (1 / 2) 1 0 0 0
      (by decide)⟩

theorem getD_map_in {α β : Type} (f : α → β) (db : β) :
    ∀ (l : List α) (j : Nat) (d : α), j < l.length → (l.map f).getD j db = f (l.getD j d) := by
  intro l
  induction l with
  | nil => intro j d h; simp at h
  | cons x xs ih =>
    intro j d h
    cases j with
    | zero => simp
    | succ m =>
      simp only [List.map_cons, List.getD_cons_succ]
      exact ih m d (by simpa using h)

theorem getD_range (w j d : Nat) (h : j < w) : (List.range w).getD j d = j := by
  rw [List.getD_eq_getElem _ _ (by simpa using h)]
  simp

theorem colMean_length (rows : List (List ℚ)) (w : Nat) : (colMean rows w).length = w := by
  simp [colMean]

theorem colMean_getD (rows : List (List ℚ)) (w j : Nat) (hj : j < w) :
    (colMean rows w).getD j 0 =
      (rows.map (fun r => r.getD j 0)).sum / (rows.length : ℚ) := by
  unfold colMean
  rw [getD_map_in _ _ (List.range w) j 0 (by simpa using hj), getD_range w j 0 hj]

theorem rocFold_ok_inv {th dist : List ℚ} {lb : List Bool} {tr te : List Nat}
    {rowT rowF : List ℚ} {acc : ℚ}
    (h : rocFold th dist lb tr te = Except.ok (rowT, rowF, acc)) :
    ∃ (accTrain : List ℚ) (best : Nat) (rows : List (ℚ × ℚ)),
      mapExcept (fun t =>
          match calculate_accuracy t (npIxQ dist tr) (npIxB lb tr) with
          | Except.error e => Except.error e
          | Except.ok r => Except.ok r.2.2) th = Except.ok accTrain ∧
      npArgmax accTrain = Except.ok best ∧
      mapExcept (fun t =>
          match calculate_accuracy t (npIxQ dist te) (npIxB lb te) with
          | Except.error e => Except.error e
          | Except.ok r => Except.ok (r.1, r.2.1)) th = Except.ok rows ∧
      (∃ u v, calculate_accuracy (th.getD best 0) (npIxQ dist te) (npIxB lb te) =
        Except.ok (u, v, acc)) ∧
      rowT = rows.map Prod.fst ∧ rowF = rows.map Prod.snd := by
  simp only [rocFold] at h
  cases hacc : mapExcept (fun t =>
      match calculate_accuracy t (npIxQ dist tr) (npIxB lb tr) with
      | Except.error e => Except.error e
      | Except.ok r => Except.ok r.2.2) th with
  | error e => rw [hacc] at h; simp at h
  | ok accTrain =>
    rw [hacc] at h
    simp only at h
    cases hbest : npArgmax accTrain with
    | error e => rw [hbest] at h; simp at h
    | ok best =>
      rw [hbest] at h
      simp only at h
      cases hrows : mapExcept (fun t =>
          match calculate_accuracy t (npIxQ dist te) (npIxB lb te) with
          | Except.error e => Except.error e
          | Except.ok r => Except.ok (r.1, r.2.1)) th with
      | error e => rw [hrows] at h; simp at h
      | ok rows =>
        rw [hrows] at h
        simp only at h
        cases hlast : calculate_accuracy (th.getD best 0) (npIxQ dist te) (npIxB lb te) with
        | error e => rw [hlast] at h; simp at h
        | ok r =>
          rw [hlast] at h
          simp only [Except.ok.injEq, Prod.mk.injEq] at h
          obtain ⟨h1, h2, h3⟩ := h
          exact ⟨accTrain, best, rows, rfl, hbest, rfl,
            ⟨r.1, r.2.1, by rw [hlast, ← h3]⟩, h1.symm, h2.symm⟩

/-- C5: whenever `calculate_roc` returns, its result decomposes fold by fold
as the claim describes: per fold, the best threshold index is the deterministic
argmax of the training accuracies (the value at that index is maximal and all
strictly earlier entries are strictly smaller, so ties break toward the lowest
index); the fold's recorded accuracy is the accuracy at that training-selected
threshold on the test indices; and the returned TPR and FPR curves, each of
the threshold grid's length, are the pointwise arithmetic means across the
`k` folds of the per-fold test-set curves. -/
theorem C5_roc_selection_and_aggregation (th : List ℚ) (e1 e2 : List (List ℚ))
    (lb : List Bool) (k : Nat) (tpr fpr accs : List ℚ)
    (h : calculate_roc th e1 e2 lb k = Except.ok (tpr, fpr, accs)) :
    ∃ (folds : List (List Nat × List Nat)) (curves : List (List ℚ × List ℚ)),
      lfoldSplit k (min lb.length e1.length) = Except.ok folds ∧
      folds.length = k ∧ accs.length = k ∧ curves.length = k ∧
      (∀ i, i < folds.length →
        ∃ accTrain : List ℚ, accTrain.length = th.length ∧
          (∀ j, j < th.length → ∃ u v,
            calculate_accuracy (th.getD j 0)
                (npIxQ (distList e1 e2) (folds.getD i ([], [])).1)
                (npIxB lb (folds.getD i ([], [])).1) =
              Except.ok (u, v, accTrain.getD j 0)) ∧
          (∃ bi, bi < th.length ∧
            (∀ j, j < th.length → accTrain.getD j 0 ≤ accTrain.getD bi 0) ∧
            (∀ j, j < bi → accTrain.getD j 0 < accTrain.getD bi 0) ∧
            ∃ u v, calculate_accuracy (th.getD bi 0)
                (npIxQ (distList e1 e2) (folds.getD i ([], [])).2)
                (npIxB lb (folds.getD i ([], [])).2) =
              Except.ok (u, v, accs.getD i 0)) ∧
          (curves.getD i ([], [])).1.length = th.length ∧
          (curves.getD i ([], [])).2.length = th.length ∧
          (∀ j, j < th.length → ∃ a,
            calculate_accuracy (th.getD j 0)
                (npIxQ (distList e1 e2) (folds.getD i ([], [])).2)
                (npIxB lb (folds.getD i ([], [])).2) =
              Except.ok ((curves.getD i ([], [])).1.getD j 0,
                (curves.getD i ([], [])).2.getD j 0, a))) ∧
      tpr.length = th.length ∧ fpr.length = th.length ∧
      (∀ j, j < th.length →
        tpr.getD j 0 = (curves.map (fun c => c.1.getD j 0)).sum / (k : ℚ) ∧
        fpr.getD j 0 = (curves.map (fun c => c.2.getD j 0)).sum / (k : ℚ)) := by
  simp only [calculate_roc] at h
  by_cases hlen : e1.length = e2.length
  swap
  · rw [if_neg hlen] at h; simp at h
  rw [if_pos hlen] at h
  by_cases hdim : shape1 e1 = shape1 e2
  swap
  · rw [if_neg hdim] at h; simp at h
  rw [if_pos hdim] at h
  by_cases hk0 : k = 0
  · rw [if_pos hk0] at h; simp at h
  rw [if_neg hk0] at h
  cases hsplit : lfoldSplit k (min lb.length e1.length) with
  | error e => rw [hsplit] at h; simp at h
  | ok folds =>
    rw [hsplit] at h
    simp only at h
    cases hmap : mapExcept
        (fun p : List Nat × List Nat =>
          rocFold th (distList e1 e2) lb p.1 p.2) folds with
    | error e => rw [hmap] at h; simp at h
    | ok results =>
      rw [hmap] at h
      simp only [Except.ok.injEq, Prod.mk.injEq] at h
      obtain ⟨h1, h2, h3⟩ := h
      have hflen : folds.length = k := lfoldSplit_length hsplit (Nat.one_le_iff_ne_zero.mpr hk0)
      have hrlen : results.length = folds.length := mapExcept_ok_length hmap
      refine ⟨folds, results.map (fun r => (r.1, r.2.1)), rfl, hflen, ?_, ?_, ?_, ?_, ?_, ?_⟩
      · rw [← h3]
        simp [hrlen, hflen]
      · simp [hrlen, hflen]
      · intro i hi
        have hfold := mapExcept_ok_getD ([], [])
          (([] : List ℚ), ([] : List ℚ), (0 : ℚ)) hmap i hi
        obtain ⟨accTrain, best, rows, hacc, hbest, hrows, hbacc, hT, hF⟩ :=
          rocFold_ok_inv hfold
        have hT2 : (results.getD i ([], [], (0 : ℚ))).1 = rows.map Prod.fst := hT
        have hF2 : (results.getD i ([], [], (0 : ℚ))).2.1 = rows.map Prod.snd := hF
        have hatl : accTrain.length = th.length := mapExcept_ok_length hacc
        have hrl : rows.length = th.length := mapExcept_ok_length hrows
        obtain ⟨hblt, hble, hbstrict⟩ := npArgmax_spec hbest
        have hir : i < results.length := by rw [hrlen]; exact hi
        have hcurve : (List.map (fun r : List ℚ × List ℚ × ℚ => (r.1, r.2.1)) results).getD i
            ([], []) = ((results.getD i ([], [], (0 : ℚ))).1,
              (results.getD i ([], [], (0 : ℚ))).2.1) :=
          getD_map_in _ _ results i ([], [], (0 : ℚ)) hir
        refine ⟨accTrain, hatl, ?_, ⟨best, ?_, ?_, ?_, ?_⟩, ?_, ?_, ?_⟩
        · intro j hj
          have hitem := mapExcept_ok_getD (0 : ℚ) (0 : ℚ) hacc j hj
          cases hc : calculate_accuracy (th.getD j 0)
              (npIxQ (distList e1 e2) (folds.getD i ([], [])).1)
              (npIxB lb (folds.getD i ([], [])).1) with
          | error e => rw [hc] at hitem; simp at hitem
          | ok r =>
            rw [hc] at hitem
            simp only [Except.ok.injEq] at hitem
            exact ⟨r.1, r.2.1, by rw [← hitem]⟩
        · rw [← hatl]; exact hblt
        · intro j hj; exact hble j (by rw [hatl]; exact hj)
        · exact hbstrict
        · obtain ⟨u, v, huv⟩ := hbacc
          have huv2 : calculate_accuracy (th.getD best 0)
              (npIxQ (distList e1 e2) (folds.getD i ([], [])).2)
              (npIxB lb (folds.getD i ([], [])).2) =
              Except.ok (u, v, (results.getD i ([], [], (0 : ℚ))).2.2) := huv
          have hacci : accs.getD i 0 = (results.getD i ([], [], (0 : ℚ))).2.2 := by
            rw [← h3]
            exact getD_map_in _ _ results i ([], [], (0 : ℚ)) hir
          exact ⟨u, v, by rw [huv2, hacci]⟩
        · rw [hcurve, hT2]
          simp [hrl]
        · rw [hcurve, hF2]
          simp [hrl]
        · intro j hj
          have hitem := mapExcept_ok_getD (0 : ℚ) ((0 : ℚ), (0 : ℚ)) hrows j hj
          cases hc : calculate_accuracy (th.getD j 0)
              (npIxQ (distList e1 e2) (folds.getD i ([], [])).2)
              (npIxB lb (folds.getD i ([], [])).2) with
          | error e => rw [hc] at hitem; simp at hitem
          | ok r =>
            rw [hc] at hitem
            simp only [Except.ok.injEq] at hitem
            refine ⟨r.2.2, ?_⟩
            rw [hcurve, hT2, hF2]
            have hjr : j < rows.length := by rw [hrl]; exact hj
            rw [getD_map_in Prod.fst (0 : ℚ) rows j ((0 : ℚ), (0 : ℚ)) hjr,
              getD_map_in Prod.snd (0 : ℚ) rows j ((0 : ℚ), (0 : ℚ)) hjr, ← hitem]
      · rw [← h1, colMean_length]
      · rw [← h2, colMean_length]
      · intro j hj
        constructor
        · rw [← h1, colMean_getD _ _ _ hj]
          simp only [List.map_map, List.length_map, hrlen, hflen, Function.comp_def]
        · rw [← h2, colMean_getD _ _ _ hj]
          simp only [List.map_map, List.length_map, hrlen, hflen, Function.comp_def]

theorem C5_roc_selection_and_aggregation_witness :
    (calculate_roc [2] [[0], [0]] [[1], [2]] [true, false] 1 =
      Except.ok ([1], [0], [1])) ∧
    (∃ (folds : List (List Nat × List Nat)) (curves : List (List ℚ × List ℚ)),
      lfoldSplit 1 (min ([true, false] : List Bool).length
          ([[(0 : ℚ)], [0]] : List (List ℚ)).length) = Except.ok folds ∧
      folds.length = 1 ∧ ([(1 : ℚ)] : List ℚ).length = 1 ∧ curves.length = 1 ∧
      (∀ i, i < folds.length →
        ∃ accTrain : List ℚ, accTrain.length = ([(2 : ℚ)] : List ℚ).length ∧
          (∀ j, j < ([(2 : ℚ)] : List ℚ).length → ∃ u v,
            calculate_accuracy (([(2 : ℚ)] : List ℚ).getD j 0)
                (npIxQ (distList [[(0 : ℚ)], [0]] [[(1 : ℚ)], [2]])
                  (folds.getD i ([], [])).1)
                (npIxB [true, false] (folds.getD i ([], [])).1) =
              Except.ok (u, v, accTrain.getD j 0)) ∧
          (∃ bi, bi < ([(2 : ℚ)] : List ℚ).length ∧
            (∀ j, j < ([(2 : ℚ)] : List ℚ).length →
              accTrain.getD j 0 ≤ accTrain.getD bi 0) ∧
            (∀ j, j < bi → accTrain.getD j 0 < accTrain.getD bi 0) ∧
            ∃ u v, calculate_accuracy (([(2 : ℚ)] : List ℚ).getD bi 0)
                (npIxQ (distList [[(0 : ℚ)], [0]] [[(1 : ℚ)], [2]])
                  (folds.getD i ([], [])).2)
                (npIxB [true, false] (folds.getD i ([], [])).2) =
              Except.ok (u, v, ([(1 : ℚ)] : List ℚ).getD i 0)) ∧
          (curves.getD i ([], [])).1.length = ([(2 : ℚ)] : List ℚ).length ∧
          (curves.getD i ([], [])).2.length = ([(2 : ℚ)] : List ℚ).length ∧
          (∀ j, j < ([(2 : ℚ)] : List ℚ).length → ∃ a,
            calculate_accuracy (([(2 : ℚ)] : List ℚ).getD j 0)
                (npIxQ (distList [[(0 : ℚ)], [0]] [[(1 : ℚ)], [2]])
                  (folds.getD i ([], [])).2)
                (npIxB [true, false] (folds.getD i ([], [])).2) =
              Except.ok ((curves.getD i ([], [])).1.getD j 0,
                (curves.getD i ([], [])).2.getD j 0, a))) ∧
      ([(1 : ℚ)] : List ℚ).length = ([(2 : ℚ)] : List ℚ).length ∧
      ([(0 : ℚ)] : List ℚ).length = ([(2 : ℚ)] : List ℚ).length ∧
      (∀ j, j < ([(2 : ℚ)] : List ℚ).length →
        ([(1 : ℚ)] : List ℚ).getD j 0 =
          (curves.map (fun c => c.1.getD j 0)).sum / ((1 : Nat) : ℚ) ∧
        ([(0 : ℚ)] : List ℚ).getD j 0 =
          (curves.map (fun c => c.2.getD j 0)).sum / ((1 : Nat) : ℚ))) :=
  ⟨by decide,
    C5_roc_selection_and_aggregation [2] [[0], [0]] [[1], [2]] [true, false] 1 [1] [0] [1]
      (by decide)⟩
